import Mathlib

/-!
Shallow embedding of the summarizer pipeline in `src/main.py`
(`summarize`, lines 70-165), together with theorems settling the
frozen claims about it.

Python strings are modelled as Lean `String` (both are sequences of
unicode scalar values, and Python indexing/slicing counts code points
just like `String.data` positions).  Uploaded blobs carry an optional
filename (Python `UploadFile.filename : Optional[str]`) and, for the
file field, the raw bytes, with `none` standing for the case where
`await file.read()` raises.  `HTTPException(status_code=400, ...)` is
modelled by `HTTPError`.
-/

namespace Summarizer

/-- Truthiness fallback `a or b` of Python on an optional string:
`None` and `""` are falsy. -/
def pyOr (a : Option String) (b : String) : String :=
  match a with
  | none => b
  | some s => if s = "" then b else s

/-- Truthiness of an optional string in Python (`if text`). -/
def pyTruthy (a : Option String) : Bool :=
  match a with
  | none => false
  | some s => s ≠ ""

/-- Strip of Python: drop leading and trailing whitespace characters,
on the character list. -/
def stripChars (cs : List Char) : List Char :=
  ((cs.dropWhile Char.isWhitespace).reverse.dropWhile Char.isWhitespace).reverse

/-- Python `s.strip()`. -/
def pyStrip (s : String) : String :=
  String.mk (stripChars s.data)

/-- Words of Python `s.split()` (no argument): maximal runs of
non-whitespace characters, with empty runs discarded.  The accumulator
holds the current word reversed. -/
def wordsAux : List Char → List Char → List (List Char)
  | [], acc => if acc = [] then [] else [acc.reverse]
  | c :: cs, acc =>
    if c.isWhitespace then
      if acc = [] then wordsAux cs [] else acc.reverse :: wordsAux cs []
    else
      wordsAux cs (c :: acc)

/-- Python `s.split()` on the character list. -/
def pyWords (cs : List Char) : List (List Char) :=
  wordsAux cs []

/-- Join a list of words with single space separators,
as Python `" ".join(words)`. -/
def joinSpace : List (List Char) → List Char
  | [] => []
  | [w] => w
  | w :: ws => w ++ ' ' :: joinSpace ws

/-- Python `" ".join(content.split())` from line 122 of `src/main.py`:
collapse all whitespace runs to single spaces and trim the ends. -/
def normalize (s : String) : String :=
  String.mk (joinSpace (pyWords s.data))

/-- Python `s.lower()`: the per-character basic case mapping (the
option keys involved are all ASCII). -/
def pyLower (s : String) : String :=
  String.mk (s.data.map Char.toLower)

/-- Length caps of line 124 and the defaulting `.get` of line 125:
`length_caps.get(length.lower(), 160)`. -/
def lengthCap (len : String) : Nat :=
  let l := pyLower len
  if l = "short" then 160
  else if l = "medium" then 320
  else if l = "detailed" then 480
  else 160

/-- Truncation of line 126:
`(base[: cap - 1] + "…") if len(base) > cap else base`. -/
def pyTruncate (cap : Nat) (base : String) : String :=
  if base.length > cap then String.mk (base.data.take (cap - 1)) ++ "…" else base

/-- Tone map of lines 129-135:
`tone_map.get(tone.lower(), "Summary:")`. -/
def toneOf (tone : String) : String :=
  let t := pyLower tone
  if t = "analytical" then "Analytical summary:"
  else if t = "executive" then "Executive brief:"
  else if t = "neutral" then "Summary:"
  else if t = "technical" then "Technical digest:"
  else "Summary:"

/-- Language label map of lines 149-154:
`{...}.get(language.lower(), "")`. -/
def langOf (language : String) : String :=
  let l := pyLower language
  if l = "en" then ""
  else if l = "es" then " (ES)"
  else if l = "de" then " (DE)"
  else if l = "fr" then " (FR)"
  else ""

/-- Split a character list on a literal separator character, as Python
`s.split(sep)`: the result is never empty, and empty segments are kept. -/
def splitOnChar (sep : Char) : List Char → List (List Char)
  | [] => [[]]
  | c :: cs =>
    if c = sep then [] :: splitOnChar sep cs
    else
      match splitOnChar sep cs with
      | [] => [[c]]
      | w :: ws => (c :: w) :: ws

/-- First bullet segment of line 139:
`(truncated.split(".")[0] or truncated).strip()`. -/
def firstSegment (truncated : String) : String :=
  let seg := String.mk ((splitOnChar '.' truncated.data).headD [])
  pyStrip (if seg = "" then truncated else seg)

/-- Bulleted body of lines 140-144. -/
def bulletBody (truncated : String) : String :=
  "• Key point 1: " ++ firstSegment truncated ++ "\n" ++
  "• Key point 2: Impact and implications." ++ "\n" ++
  "• Next steps: Actions to take."

/-- Body of the summary (lines 138-146): the bulleted body when
`bullets` is set, else the truncated text. -/
def bodyFor (len : String) (bullets : Bool) (content : String) : String :=
  let base := normalize content
  let truncated := pyTruncate (lengthCap len) base
  if bullets then bulletBody truncated else truncated

/-- Final summary string of line 156:
`f"{tone_prefix}{lang_label}\n{body}"`. -/
def formatSummary (tone len language : String) (bullets : Bool) (content : String) : String :=
  toneOf tone ++ langOf language ++ "\n" ++ bodyFor len bullets content

/-- Check whether a byte is a UTF-8 continuation byte (`0x80..0xBF`). -/
def isCont (b : Nat) : Bool :=
  0x80 ≤ b && b ≤ 0xBF

/-- Valid second byte of a three-byte sequence for a given lead byte
(`E0` forbids overlong forms, `ED` forbids surrogates). -/
def cont2Of3 (b1 b2 : Nat) : Bool :=
  if b1 = 0xE0 then 0xA0 ≤ b2 && b2 ≤ 0xBF
  else if b1 = 0xED then 0x80 ≤ b2 && b2 ≤ 0x9F
  else isCont b2

/-- Valid second byte of a four-byte sequence for a given lead byte
(`F0` forbids overlong forms, `F4` caps at U+10FFFF). -/
def cont2Of4 (b1 b2 : Nat) : Bool :=
  if b1 = 0xF0 then 0x90 ≤ b2 && b2 ≤ 0xBF
  else if b1 = 0xF4 then 0x80 ≤ b2 && b2 ≤ 0x8F
  else isCont b2

/-- Decode one UTF-8 sequence starting at lead byte `b1` with following
bytes `t1`: the decoded character when the sequence is well formed (else
`none`), and the number of bytes consumed after `b1` — the length of the
maximal well-formed prefix, so an ill-formed sequence is skipped and
decoding resumes at the first offending byte. -/
def utf8Step (b1 : Nat) (t1 : List Nat) : Option Char × Nat :=
  if b1 < 0x80 then (some (Char.ofNat b1), 0)
  else if 0xC2 ≤ b1 && b1 ≤ 0xDF then
    match t1 with
    | [] => (none, 0)
    | b2 :: _ =>
      if isCont b2 then (some (Char.ofNat ((b1 - 0xC0) * 64 + (b2 - 0x80))), 1)
      else (none, 0)
  else if 0xE0 ≤ b1 && b1 ≤ 0xEF then
    match t1 with
    | [] => (none, 0)
    | b2 :: t2 =>
      if cont2Of3 b1 b2 then
        match t2 with
        | [] => (none, 1)
        | b3 :: _ =>
          if isCont b3 then
            (some (Char.ofNat ((b1 - 0xE0) * 4096 + (b2 - 0x80) * 64 + (b3 - 0x80))), 2)
          else (none, 1)
      else (none, 0)
  else if 0xF0 ≤ b1 && b1 ≤ 0xF4 then
    match t1 with
    | [] => (none, 0)
    | b2 :: t2 =>
      if cont2Of4 b1 b2 then
        match t2 with
        | [] => (none, 1)
        | b3 :: t3 =>
          if isCont b3 then
            match t3 with
            | [] => (none, 2)
            | b4 :: _ =>
              if isCont b4 then
                (some (Char.ofNat ((b1 - 0xF0) * 262144 + (b2 - 0x80) * 4096 +
                    (b3 - 0x80) * 64 + (b4 - 0x80))), 3)
              else (none, 2)
          else (none, 1)
      else (none, 0)
  else (none, 0)

/-- Lenient UTF-8 decoding as Python `raw.decode("utf-8", errors="ignore")`
(line 108): well-formed sequences decode to their scalar value, and the
bytes of an ill-formed sequence (including overlong forms, surrogates and
values above U+10FFFF, which `utf8Step` excludes) are dropped. -/
def utf8DecodeIgnoreAux : Nat → List Nat → List Char
  | _, [] => []
  | 0, _ :: _ => []
  | fuel + 1, b1 :: t1 =>
    let s := utf8Step b1 t1
    (match s.1 with | some c => [c] | none => []) ++
      utf8DecodeIgnoreAux fuel (t1.drop s.2)

/-- Decode a whole byte list: each step consumes at least the lead
byte, so fuel equal to the byte count always suffices. -/
def utf8DecodeIgnore (bs : List Nat) : List Char :=
  utf8DecodeIgnoreAux bs.length bs

/-- Python `raw.decode("utf-8", errors="ignore")` producing a string. -/
def decodeUtf8Ignore (raw : List Nat) : String :=
  String.mk (utf8DecodeIgnore raw)

/-- An uploaded file: `UploadFile.filename` may be `None`, and
`readBytes = none` models `await file.read()` raising. -/
structure FileUpload where
  filename : Option String
  readBytes : Option (List Nat)
deriving DecidableEq

/-- An uploaded image: only its filename matters to the pipeline. -/
structure ImageUpload where
  filename : Option String
deriving DecidableEq

/-- The normalized multipart request of `summarize` (lines 70-77),
with the transport defaults of the `Form(...)` declarations. -/
structure SummarizeRequest where
  tone : String := "analytical"
  length : String := "short"
  language : String := "en"
  bullets : Bool := false
  text : Option String := none
  file : Option FileUpload := none
  image : Option ImageUpload := none
deriving DecidableEq

/-- The response model `SummaryResponse` (lines 19-25). -/
structure SummaryResponse where
  summary : String
  tone : String
  length : String
  language : String
  bullets : Bool
  used_input : String
deriving DecidableEq

/-- A raised `HTTPException` with its status code and detail message. -/
structure HTTPError where
  status : Nat
  detail : String
deriving DecidableEq

/-- Content resolution (lines 101-119): priority text > file > image,
yielding the resolved `(content, used_input)` pair or the 400 error. -/
def resolve (req : SummarizeRequest) : Except HTTPError (String × String) :=
  let content₀ := pyStrip (pyOr req.text "")
  let step₁ : Except HTTPError (String × String) :=
    if content₀ = "" then
      match req.file with
      | some f =>
        match f.readBytes with
        | some raw => .ok (decodeUtf8Ignore raw, pyOr f.filename "uploaded file")
        | none => .error ⟨400, "Could not read uploaded file as text."⟩
      | none => .ok (content₀, "")
    else .ok (content₀, "")
  match step₁ with
  | .error e => .error e
  | .ok (content₁, used₁) =>
    let (content₂, used₂) :=
      if content₁ = "" then
        match req.image with
        | some img =>
          let lbl := pyOr img.filename "uploaded image"
          ("[Image: " ++ lbl ++ "]", lbl)
        | none => (content₁, used₁)
      else (content₁, used₁)
    if content₂ = "" then
      .error ⟨400, "No input provided. Submit text, a file, or an image."⟩
    else .ok (content₂, used₂)

/-- The whole `summarize` endpoint (lines 70-165): resolve the content,
format the summary, assemble the response with the `used_input`
fallback of line 164 (`used_input or ("text" if text else "")`). -/
def summarize (req : SummarizeRequest) : Except HTTPError SummaryResponse :=
  match resolve req with
  | .error e => .error e
  | .ok (content, used_input) =>
    .ok
      { summary := formatSummary req.tone req.length req.language req.bullets content
        tone := req.tone
        length := req.length
        language := req.language
        bullets := req.bullets
        used_input :=
          if used_input = "" then (if pyTruthy req.text then "text" else "")
          else used_input }

/-- Trimmed text field (line 103): `content = (text or "").strip()`. -/
def trimmedText (req : SummarizeRequest) : String :=
  pyStrip (pyOr req.text "")

/-- The lines of a string, splitting on the newline character as Python
`s.split("\n")`. -/
def linesOf (s : String) : List String :=
  (splitOnChar '\n' s.data).map String.mk

/-- Reading the uploaded file's bytes raises (line 110-111 would fire if
the file is consulted). -/
def fileReadRaises (req : SummarizeRequest) : Prop :=
  ∃ f, req.file = some f ∧ f.readBytes = none

/-- The file source yields no content: no file at all, or the file's
bytes are readable but decode to the empty string. -/
def fileYieldsNothing (req : SummarizeRequest) : Prop :=
  req.file = none ∨
    ∃ f raw, req.file = some f ∧ f.readBytes = some raw ∧ decodeUtf8Ignore raw = ""

/-- A string of `n` letters `a`, for concrete over-cap inputs. -/
def aChars (n : Nat) : String :=
  String.mk (List.replicate n 'a')

/-- Characters of the words produced by `wordsAux` are never whitespace,
provided the accumulator holds no whitespace. -/
theorem wordsAux_no_ws (cs : List Char) :
    ∀ acc : List Char, (∀ c ∈ acc, c.isWhitespace = false) →
      ∀ w ∈ wordsAux cs acc, ∀ c ∈ w, c.isWhitespace = false := by
  induction cs with
  | nil =>
    intro acc hacc w hw c hc
    by_cases h : acc = []
    · simp [wordsAux, h] at hw
    · simp [wordsAux, h] at hw
      subst hw
      exact hacc c (List.mem_reverse.mp hc)
  | cons c₀ cs ih =>
    intro acc hacc w hw c hc
    by_cases hws : c₀.isWhitespace
    · by_cases h : acc = []
      · simp [wordsAux, hws, h] at hw
        exact ih [] (by simp) w hw c hc
      · simp [wordsAux, hws, h] at hw
        rcases hw with hw | hw
        · subst hw
          exact hacc c (List.mem_reverse.mp hc)
        · exact ih [] (by simp) w hw c hc
    · simp [wordsAux, hws] at hw
      refine ih (c₀ :: acc) ?_ w hw c hc
      intro d hd
      rcases List.mem_cons.mp hd with hd | hd
      · subst hd; simpa using hws
      · exact hacc d hd

/-- A character of `joinSpace ws` is either a space or a character of
one of the words. -/
theorem mem_joinSpace (ws : List (List Char)) (c : Char) (h : c ∈ joinSpace ws) :
    c = ' ' ∨ ∃ w ∈ ws, c ∈ w := by
  induction ws with
  | nil => simp [joinSpace] at h
  | cons w ws ih =>
    cases ws with
    | nil =>
      right
      exact ⟨w, by simp, by simpa [joinSpace] using h⟩
    | cons w₂ ws₂ =>
      rw [show joinSpace (w :: w₂ :: ws₂) = w ++ ' ' :: joinSpace (w₂ :: ws₂) from rfl] at h
      rcases List.mem_append.mp h with h | h
      · exact Or.inr ⟨w, by simp, h⟩
      · rcases List.mem_cons.mp h with h | h
        · exact Or.inl h
        · rcases ih h with h | ⟨w', hw', hc⟩
          · exact Or.inl h
          · exact Or.inr ⟨w', by simp [hw'], hc⟩

/-- Characters of a normalized string: spaces, or non-whitespace
characters of the original. -/
theorem normalize_mem (s : String) (c : Char) (h : c ∈ (normalize s).data) :
    c = ' ' ∨ c.isWhitespace = false := by
  rcases mem_joinSpace _ _ h with h | ⟨w, hw, hc⟩
  · exact Or.inl h
  · exact Or.inr (wordsAux_no_ws s.data [] (by simp) w hw c hc)

/-- A normalized string contains no newline. -/
theorem normalize_no_nl (s : String) : '\n' ∉ (normalize s).data := by
  intro h
  rcases normalize_mem s '\n' h with h | h
  · exact absurd h (by decide)
  · exact absurd h (by decide)

/-- On an all-whitespace character list, `wordsAux` with an empty
accumulator produces no words. -/
theorem wordsAux_of_ws (cs : List Char) (h : ∀ c ∈ cs, c.isWhitespace = true) :
    wordsAux cs [] = [] := by
  induction cs with
  | nil => simp [wordsAux]
  | cons c₀ cs ih =>
    have h₀ : c₀.isWhitespace = true := h c₀ (by simp)
    simp [wordsAux, h₀]
    exact ih fun c hc => h c (by simp [hc])

/-- Normalizing an all-whitespace string yields the empty string. -/
theorem normalize_of_ws (s : String) (h : ∀ c ∈ s.data, c.isWhitespace = true) :
    normalize s = "" := by
  unfold normalize pyWords
  rw [wordsAux_of_ws s.data h]
  rfl

/-- Every length cap is at least 160. -/
theorem lengthCap_ge (len : String) : 160 ≤ lengthCap len := by
  simp only [lengthCap]
  split_ifs <;> norm_num

/-- Truncation leaves a short enough string unchanged. -/
theorem pyTruncate_of_le (cap : Nat) (b : String) (h : b.length ≤ cap) :
    pyTruncate cap b = b := by
  unfold pyTruncate
  rw [if_neg (by omega)]

/-- Characters of the truncation: the characters of the list
`b.data.take (cap - 1) ++ ['…']`, of total length `cap`, when the
string overflows the (positive) cap. -/
theorem pyTruncate_of_gt (cap : Nat) (b : String) (h : cap < b.length) (hc : 1 ≤ cap) :
    (pyTruncate cap b).data = b.data.take (cap - 1) ++ ['…'] ∧
      (pyTruncate cap b).length = cap := by
  unfold pyTruncate
  rw [if_pos (by omega)]
  constructor
  · rw [String.data_append]
  · show (String.mk (b.data.take (cap - 1)) ++ "…").data.length = cap
    rw [String.data_append]
    have hlen : (b.data.take (cap - 1)).length = cap - 1 := by
      rw [List.length_take]
      have : b.length = b.data.length := rfl
      omega
    simp [hlen]
    omega

/-- Truncation never exceeds a positive cap. -/
theorem pyTruncate_le (cap : Nat) (b : String) (hc : 1 ≤ cap) :
    (pyTruncate cap b).length ≤ cap := by
  by_cases h : b.length ≤ cap
  · rw [pyTruncate_of_le cap b h]; exact h
  · exact le_of_eq (pyTruncate_of_gt cap b (by omega) hc).2

/-- A character of the truncation comes from the string or is the
appended ellipsis. -/
theorem pyTruncate_mem (cap : Nat) (b : String) (c : Char)
    (h : c ∈ (pyTruncate cap b).data) : c ∈ b.data ∨ c = '…' := by
  unfold pyTruncate at h
  split at h
  · rw [String.data_append] at h
    rcases List.mem_append.mp h with h | h
    · exact Or.inl ((List.take_sublist _ _).mem h)
    · right
      simpa using h
  · exact Or.inl h

/-- Splitting never produces the empty list of segments. -/
theorem splitOnChar_ne_nil (sep : Char) (l : List Char) : splitOnChar sep l ≠ [] := by
  cases l with
  | nil => simp [splitOnChar]
  | cons c cs =>
    unfold splitOnChar
    split
    · simp
    · split <;> simp

/-- A character of the first split segment is a character of the list. -/
theorem headD_splitOnChar_mem (sep : Char) (l : List Char) (c : Char)
    (h : c ∈ (splitOnChar sep l).headD []) : c ∈ l := by
  induction l with
  | nil => simp [splitOnChar] at h
  | cons c₀ cs ih =>
    unfold splitOnChar at h
    by_cases h₀ : c₀ = sep
    · rw [if_pos h₀] at h
      simp at h
    · rw [if_neg h₀] at h
      rcases hsp : splitOnChar sep cs with _ | ⟨w, ws⟩
      · exact absurd hsp (splitOnChar_ne_nil sep cs)
      · rw [hsp] at h
        simp at h
        rcases h with h | h
        · simp [h]
        · have : c ∈ (splitOnChar sep cs).headD [] := by rw [hsp]; simpa using h
          exact List.mem_cons_of_mem _ (ih this)

/-- Splitting a list free of the separator yields that list alone. -/
theorem splitOnChar_of_not_mem (sep : Char) (a : List Char) (h : sep ∉ a) :
    splitOnChar sep a = [a] := by
  induction a with
  | nil => rfl
  | cons c cs ih =>
    unfold splitOnChar
    rw [if_neg (by intro hc; exact h (by simp [hc]))]
    rw [ih (fun hm => h (List.mem_cons_of_mem _ hm))]

/-- Splitting at the first separator occurrence peels off the prefix. -/
theorem splitOnChar_append (sep : Char) (a b : List Char) (h : sep ∉ a) :
    splitOnChar sep (a ++ sep :: b) = a :: splitOnChar sep b := by
  induction a with
  | nil => simp [splitOnChar]
  | cons c cs ih =>
    have hc : ¬c = sep := by intro hc; exact h (by simp [hc])
    have hrec := ih (fun hm => h (List.mem_cons_of_mem _ hm))
    show splitOnChar sep (c :: (cs ++ sep :: b)) = (c :: cs) :: splitOnChar sep b
    conv_lhs => rw [splitOnChar]
    rw [if_neg hc, hrec]

/-- A character surviving a Python strip was in the original list. -/
theorem stripChars_mem (l : List Char) (c : Char) (h : c ∈ stripChars l) : c ∈ l := by
  unfold stripChars at h
  rw [List.mem_reverse] at h
  have h₁ := (List.dropWhile_sublist _).mem h
  rw [List.mem_reverse] at h₁
  exact (List.dropWhile_sublist _).mem h₁

/-- A character of the first bullet segment is a character of the
truncated text. -/
theorem firstSegment_mem (t : String) (c : Char) (h : c ∈ (firstSegment t).data) :
    c ∈ t.data := by
  unfold firstSegment at h
  have h' := stripChars_mem _ _ h
  split at h'
  · exact h'
  · exact headD_splitOnChar_mem '.' t.data c h'

/-- No newline survives into the first bullet segment of a truncated
normalized text. -/
theorem firstSegment_no_nl (len s : String) :
    '\n' ∉ (firstSegment (pyTruncate (lengthCap len) (normalize s))).data := by
  intro h
  have h₁ := firstSegment_mem _ _ h
  rcases pyTruncate_mem _ _ _ h₁ with h₂ | h₂
  · exact normalize_no_nl s h₂
  · exact absurd h₂ (by decide)

/-- Lines of `a ++ "\n" ++ b` when `a` holds no newline. -/
theorem linesOf_append_nl (a b : String) (h : '\n' ∉ a.data) :
    linesOf (a ++ "\n" ++ b) = a :: linesOf b := by
  unfold linesOf
  have hdata : (a ++ "\n" ++ b).data = a.data ++ '\n' :: b.data := by
    rw [String.data_append, String.data_append]
    show a.data ++ ['\n'] ++ b.data = _
    simp
  rw [hdata, splitOnChar_append '\n' a.data b.data h]
  rfl

/-- A newline-free string is a single line. -/
theorem linesOf_no_nl (a : String) (h : '\n' ∉ a.data) : linesOf a = [a] := by
  unfold linesOf
  rw [splitOnChar_of_not_mem _ _ h]
  rfl

/-- The bulleted body splits into exactly its three bullet lines when
the first segment holds no newline. -/
theorem linesOf_bulletBody (tr : String) (h : '\n' ∉ (firstSegment tr).data) :
    linesOf (bulletBody tr) =
      ["• Key point 1: " ++ firstSegment tr,
       "• Key point 2: Impact and implications.",
       "• Next steps: Actions to take."] := by
  have hb : bulletBody tr =
      ("• Key point 1: " ++ firstSegment tr) ++ "\n" ++
        ("• Key point 2: Impact and implications." ++ "\n" ++
          "• Next steps: Actions to take.") := by
    unfold bulletBody
    simp [String.append_assoc]
  have h₁ : '\n' ∉ (("• Key point 1: " : String) ++ firstSegment tr).data := by
    rw [String.data_append]
    intro hm
    rcases List.mem_append.mp hm with hm | hm
    · exact absurd hm (by decide)
    · exact h hm
  rw [hb, linesOf_append_nl _ _ h₁,
    linesOf_append_nl _ _ (by decide), linesOf_no_nl _ (by decide)]

/-- The synthesized image content is never the empty string. -/
theorem image_content_ne (l : String) : ("[Image: " ++ l ++ "]" : String) ≠ "" := by
  intro h
  have hl := congrArg String.length h
  rw [String.length_append, String.length_append] at hl
  have h₁ : ("[Image: " : String).length = 8 := rfl
  have h₂ : ("]" : String).length = 1 := rfl
  have h₃ : ("" : String).length = 0 := rfl
  omega

/-- Resolution with non-empty trimmed text: the trimmed text is chosen,
with no explicit label. -/
theorem resolve_text (req : SummarizeRequest) (h : trimmedText req ≠ "") :
    resolve req = .ok (trimmedText req, "") := by
  unfold trimmedText at h
  simp [resolve, h, trimmedText]

/-- Resolution when the trimmed text is empty and reading the file's
bytes raises: the 400 read error, whatever the image field holds. -/
theorem resolve_read_error (req : SummarizeRequest) (f : FileUpload)
    (h : trimmedText req = "") (hf : req.file = some f) (hr : f.readBytes = none) :
    resolve req = .error ⟨400, "Could not read uploaded file as text."⟩ := by
  unfold trimmedText at h
  simp [resolve, h, hf, hr]

/-- Resolution when the trimmed text is empty and the file's bytes read
and decode to non-empty text: that text is chosen with the file label. -/
theorem resolve_file (req : SummarizeRequest) (f : FileUpload) (raw : List Nat)
    (h : trimmedText req = "") (hf : req.file = some f) (hr : f.readBytes = some raw)
    (hd : decodeUtf8Ignore raw ≠ "") :
    resolve req = .ok (decodeUtf8Ignore raw, pyOr f.filename "uploaded file") := by
  unfold trimmedText at h
  simp [resolve, h, hf, hr, hd]

/-- Resolution when neither text nor file yields content and an image is
present: the synthesized image placeholder with the image label. -/
theorem resolve_image (req : SummarizeRequest) (img : ImageUpload)
    (h : trimmedText req = "") (hf : fileYieldsNothing req) (hi : req.image = some img) :
    resolve req =
      .ok ("[Image: " ++ pyOr img.filename "uploaded image" ++ "]",
        pyOr img.filename "uploaded image") := by
  unfold trimmedText at h
  rcases hf with hf | ⟨f, raw, hf, hr, hd⟩
  · simp [resolve, h, hf, hi, image_content_ne]
  · simp [resolve, h, hf, hr, hd, hi, image_content_ne]

/-- Resolution when no source yields content: the 400 no-input error. -/
theorem resolve_empty (req : SummarizeRequest)
    (h : trimmedText req = "") (hf : fileYieldsNothing req) (hi : req.image = none) :
    resolve req = .error ⟨400, "No input provided. Submit text, a file, or an image."⟩ := by
  unfold trimmedText at h
  rcases hf with hf | ⟨f, raw, hf, hr, hd⟩
  · simp [resolve, h, hf, hi]
  · simp [resolve, h, hf, hr, hd, hi]

/-- Success of the endpoint is success of resolution. -/
theorem summarize_isOk (req : SummarizeRequest) :
    (summarize req).isOk = (resolve req).isOk := by
  unfold summarize
  cases hr : resolve req with
  | error e => rfl
  | ok p => cases p; rfl

/-- Errors of the endpoint are exactly the errors of resolution. -/
theorem summarize_error_iff (req : SummarizeRequest) (e : HTTPError) :
    summarize req = .error e ↔ resolve req = .error e := by
  unfold summarize
  cases hr : resolve req with
  | error e' => simp
  | ok p => cases p; simp

/-- Shape of a successful response in terms of the resolution. -/
theorem summarize_ok (req : SummarizeRequest) (content used : String)
    (h : resolve req = .ok (content, used)) :
    summarize req = .ok
      { summary := formatSummary req.tone req.length req.language req.bullets content
        tone := req.tone
        length := req.length
        language := req.language
        bullets := req.bullets
        used_input :=
          if used = "" then (if pyTruthy req.text then "text" else "")
          else used } := by
  unfold summarize
  rw [h]

/-- C3: for every resolved content string and every `length` option,
after collapsing whitespace runs to single spaces and trimming, a
normalized text within the cap is kept unmodified, and a normalized
text over the cap is truncated to its first `cap - 1` characters
followed by a single ellipsis character — hence exactly `cap`
characters, never `cap` characters before the ellipsis. -/
theorem C3_truncation_boundary (content len : String) :
    ((normalize content).length ≤ lengthCap len →
      pyTruncate (lengthCap len) (normalize content) = normalize content) ∧
    (lengthCap len < (normalize content).length →
      (pyTruncate (lengthCap len) (normalize content)).data
          = (normalize content).data.take (lengthCap len - 1) ++ ['…'] ∧
        (pyTruncate (lengthCap len) (normalize content)).length = lengthCap len) := by
  constructor
  · intro h
    exact pyTruncate_of_le _ _ h
  · intro h
    exact pyTruncate_of_gt _ _ h (by have := lengthCap_ge len; omega)

set_option maxRecDepth 8000 in
/-- Witness for C3: both branches at concrete inputs — a short text is
kept as is, and a 200-character text is cut to 159 characters plus the
ellipsis under the 160 cap. -/
theorem C3_truncation_boundary_witness :
    pyTruncate (lengthCap "short") (normalize "hello world") = normalize "hello world" ∧
    (pyTruncate (lengthCap "short") (normalize (aChars 200))).length = lengthCap "short" :=
  ⟨(C3_truncation_boundary "hello world" "short").1 (by decide),
    ((C3_truncation_boundary (aChars 200) "short").2 (by decide)).2⟩

/-- C6: the tone, length and language lookups depend only on the
lowercased key (case-insensitive), map the documented keys to the
documented values, and default silently on every unrecognized value:
length to 160, tone to "Summary:" (e.g. for "WEIRD"), language to the
empty suffix. -/
theorem C6_lookup_defaults :
    (∀ s t : String, pyLower s = pyLower t →
        lengthCap s = lengthCap t ∧ toneOf s = toneOf t ∧ langOf s = langOf t) ∧
    lengthCap "short" = 160 ∧ lengthCap "medium" = 320 ∧ lengthCap "detailed" = 480 ∧
    (∀ s : String, pyLower s ≠ "short" → pyLower s ≠ "medium" → pyLower s ≠ "detailed" →
        lengthCap s = 160) ∧
    toneOf "analytical" = "Analytical summary:" ∧ toneOf "executive" = "Executive brief:" ∧
    toneOf "neutral" = "Summary:" ∧ toneOf "technical" = "Technical digest:" ∧
    (∀ s : String, pyLower s ≠ "analytical" → pyLower s ≠ "executive" →
        pyLower s ≠ "neutral" → pyLower s ≠ "technical" → toneOf s = "Summary:") ∧
    langOf "en" = "" ∧ langOf "es" = " (ES)" ∧ langOf "de" = " (DE)" ∧ langOf "fr" = " (FR)" ∧
    (∀ s : String, pyLower s ≠ "en" → pyLower s ≠ "es" → pyLower s ≠ "de" → pyLower s ≠ "fr" →
        langOf s = "") ∧
    toneOf "WEIRD" = "Summary:" := by
  refine ⟨?_, by decide, by decide, by decide, ?_, by decide, by decide, by decide, by decide,
    ?_, by decide, by decide, by decide, by decide, ?_, by decide⟩
  · intro s t h
    exact ⟨by simp [lengthCap, h], by simp [toneOf, h], by simp [langOf, h]⟩
  · intro s h₁ h₂ h₃
    simp [lengthCap, h₁, h₂, h₃]
  · intro s h₁ h₂ h₃ h₄
    simp [toneOf, h₁, h₂, h₃, h₄]
  · intro s h₁ h₂ h₃ h₄
    simp [langOf, h₁, h₂, h₃, h₄]

/-- Witness for C6: mixed-case and unrecognized option values at
concrete inputs. -/
theorem C6_lookup_defaults_witness :
    lengthCap "SHORT" = lengthCap "short" ∧ lengthCap "gigantic" = 160 ∧
    toneOf "WeIrD" = "Summary:" ∧ langOf "pt" = "" := by
  obtain ⟨hci, _, _, _, hlen, _, _, _, _, htone, _, _, _, _, hlang, _⟩ := C6_lookup_defaults
  exact ⟨(hci "SHORT" "short" (by decide)).1,
    hlen "gigantic" (by decide) (by decide) (by decide),
    htone "WeIrD" (by decide) (by decide) (by decide) (by decide),
    hlang "pt" (by decide) (by decide) (by decide) (by decide)⟩


/-- Fallback of `or` with a non-empty right operand is non-empty. -/
theorem pyOr_ne (a : Option String) (b : String) (hb : b ≠ "") : pyOr a b ≠ "" := by
  cases a with
  | none => exact hb
  | some s =>
    show (if s = "" then b else s) ≠ ""
    split
    · exact hb
    · rename_i h
      exact h

/-- Non-empty trimmed text needs a truthy text field. -/
theorem pyTruthy_of_trimmed (req : SummarizeRequest) (h : trimmedText req ≠ "") :
    pyTruthy req.text = true := by
  unfold trimmedText at h
  cases ht : req.text with
  | none =>
    rw [ht] at h
    exact absurd rfl h
  | some t =>
    rw [ht] at h
    by_cases h0 : t = ""
    · subst h0
      exact absurd rfl h
    · simp [pyTruthy, h0]

/-- C5: content resolution follows the priority text > file > image.
Non-empty trimmed text is used with file and image ignored; otherwise a
present file with readable bytes is decoded leniently — resolution then
never fails with the read error, and non-empty decoded text is chosen
with the file label; otherwise a present image yields the literal
`[Image: <filename-or-"uploaded image">]` with no decoding attempted. -/
theorem C5_source_priority (req : SummarizeRequest) :
    (trimmedText req ≠ "" → resolve req = .ok (trimmedText req, "")) ∧
    (∀ f raw, trimmedText req = "" → req.file = some f → f.readBytes = some raw →
      resolve req ≠ .error ⟨400, "Could not read uploaded file as text."⟩ ∧
      (decodeUtf8Ignore raw ≠ "" →
        resolve req = .ok (decodeUtf8Ignore raw, pyOr f.filename "uploaded file"))) ∧
    (∀ img, trimmedText req = "" → fileYieldsNothing req → req.image = some img →
      resolve req = .ok ("[Image: " ++ pyOr img.filename "uploaded image" ++ "]",
        pyOr img.filename "uploaded image")) := by
  refine ⟨resolve_text req, ?_, fun img h hf hi => resolve_image req img h hf hi⟩
  intro f raw h hf hrb
  by_cases hd : decodeUtf8Ignore raw = ""
  · constructor
    · cases hi : req.image with
      | some img =>
        rw [resolve_image req img h (Or.inr ⟨f, raw, hf, hrb, hd⟩) hi]
        intro hc
        exact Except.noConfusion hc
      | none =>
        rw [resolve_empty req h (Or.inr ⟨f, raw, hf, hrb, hd⟩) hi]
        intro hc
        injection hc with h2
        injection h2 with _ h3
        exact absurd h3 (by decide)
    · intro hd2
      exact absurd hd hd2
  · have hok := resolve_file req f raw h hf hrb hd
    refine ⟨?_, fun _ => hok⟩
    rw [hok]
    intro hc
    exact Except.noConfusion hc

/-- Witness for C5: all three priority branches at concrete requests —
text wins over a present (even unreadable) file and image, a readable
file is decoded, and an image is acknowledged verbatim. -/
theorem C5_source_priority_witness :
    resolve { text := some " hi ", file := some ⟨some "f.txt", none⟩,
              image := some ⟨some "i.png"⟩ } = .ok ("hi", "") ∧
    resolve { file := some ⟨some "f.txt", some [104, 105]⟩ } = .ok ("hi", "f.txt") ∧
    resolve { image := some ⟨some "cat.jpg"⟩ } = .ok ("[Image: cat.jpg]", "cat.jpg") := by
  refine ⟨?_, ?_, ?_⟩
  · exact (C5_source_priority _).1 (by decide)
  · exact ((C5_source_priority { file := some ⟨some "f.txt", some [104, 105]⟩ }).2.1
      ⟨some "f.txt", some [104, 105]⟩ [104, 105] rfl rfl rfl).2 (by decide)
  · exact (C5_source_priority { image := some ⟨some "cat.jpg"⟩ }).2.2
      ⟨some "cat.jpg"⟩ rfl (Or.inl rfl) rfl

/-- C9: on every success, `used_input` is the resolved source label —
"text" when the trimmed text was chosen (the text field is then
necessarily truthy, so the fallback fires), the file's filename or
"uploaded file" when the file was chosen, and the image's filename or
"uploaded image" when the image was chosen. -/
theorem C9_used_input (req : SummarizeRequest) (r : SummaryResponse)
    (hr : summarize req = .ok r) :
    (trimmedText req ≠ "" → r.used_input = "text") ∧
    (∀ f raw, trimmedText req = "" → req.file = some f → f.readBytes = some raw →
      decodeUtf8Ignore raw ≠ "" → r.used_input = pyOr f.filename "uploaded file") ∧
    (∀ img, trimmedText req = "" → fileYieldsNothing req → req.image = some img →
      r.used_input = pyOr img.filename "uploaded image") := by
  refine ⟨?_, ?_, ?_⟩
  · intro h
    have hok := summarize_ok req (trimmedText req) "" (resolve_text req h)
    rw [hok] at hr
    rw [← Except.ok.inj hr]
    simp [pyTruthy_of_trimmed req h]
  · intro f raw h hf hrb hd
    have hok := summarize_ok req _ _ (resolve_file req f raw h hf hrb hd)
    rw [hok] at hr
    rw [← Except.ok.inj hr]
    simp [if_neg (pyOr_ne f.filename "uploaded file" (by decide))]
  · intro img h hf hi
    have hok := summarize_ok req _ _ (resolve_image req img h hf hi)
    rw [hok] at hr
    rw [← Except.ok.inj hr]
    simp [if_neg (pyOr_ne img.filename "uploaded image" (by decide))]

/-- Witness for C9: the three source labels at concrete requests,
including the "uploaded image" fallback for a nameless image. -/
theorem C9_used_input_witness :
    ∃ r₁ r₂ r₃ : SummaryResponse,
      summarize { text := some "hello" } = .ok r₁ ∧ r₁.used_input = "text" ∧
      summarize { file := some ⟨some "f.txt", some [104]⟩ } = .ok r₂ ∧
        r₂.used_input = "f.txt" ∧
      summarize { image := some ⟨none⟩ } = .ok r₃ ∧ r₃.used_input = "uploaded image" := by
  refine ⟨_, _, _, rfl, ?_, rfl, ?_, rfl, ?_⟩
  · exact (C9_used_input { text := some "hello" } _ rfl).1 (by decide)
  · exact (C9_used_input { file := some ⟨some "f.txt", some [104]⟩ } _ rfl).2.1
      ⟨some "f.txt", some [104]⟩ [104] rfl rfl rfl (by decide)
  · exact (C9_used_input { image := some ⟨none⟩ } _ rfl).2.2 ⟨none⟩ rfl (Or.inl rfl) rfl

/-- Every resolution error carries status 400. -/
theorem resolve_error_status (req : SummarizeRequest) (e : HTTPError)
    (he : resolve req = .error e) : e.status = 400 := by
  by_cases h : trimmedText req = ""
  · cases hf : req.file with
    | none =>
      cases hi : req.image with
      | some img =>
        rw [resolve_image req img h (Or.inl hf) hi] at he
        exact Except.noConfusion he
      | none =>
        rw [resolve_empty req h (Or.inl hf) hi] at he
        injection he with h2
        rw [← h2]
    | some f =>
      cases hrb : f.readBytes with
      | none =>
        rw [resolve_read_error req f h hf hrb] at he
        injection he with h2
        rw [← h2]
      | some raw =>
        by_cases hd : decodeUtf8Ignore raw = ""
        · cases hi : req.image with
          | some img =>
            rw [resolve_image req img h (Or.inr ⟨f, raw, hf, hrb, hd⟩) hi] at he
            exact Except.noConfusion he
          | none =>
            rw [resolve_empty req h (Or.inr ⟨f, raw, hf, hrb, hd⟩) hi] at he
            injection he with h2
            rw [← h2]
        · rw [resolve_file req f raw h hf hrb hd] at he
          exact Except.noConfusion he
  · rw [resolve_text req h] at he
    exact Except.noConfusion he

/-- C4: the endpoint fails — always with the 400-equivalent client
error, and producing no response — exactly when no source yields
content (trimmed text empty, no usable file content, no image) or
reading the uploaded file's bytes raises; the tone, length and language
values never affect success (unrecognized values default silently). -/
theorem C4_error_conditions (req : SummarizeRequest) :
    ((summarize req).isOk = false ↔
      trimmedText req = "" ∧
        (fileReadRaises req ∨ (fileYieldsNothing req ∧ req.image = none))) ∧
    (∀ e, summarize req = .error e → e.status = 400) ∧
    (∀ t l g, (summarize { req with tone := t, length := l, language := g }).isOk
        = (summarize req).isOk) := by
  refine ⟨?_, ?_, ?_⟩
  · rw [summarize_isOk]
    by_cases h : trimmedText req = ""
    · cases hf : req.file with
      | none =>
        cases hi : req.image with
        | some img =>
          rw [resolve_image req img h (Or.inl hf) hi]
          simp [Except.isOk, Except.toBool, h, fileReadRaises, hf, hi]
        | none =>
          rw [resolve_empty req h (Or.inl hf) hi]
          simp [Except.isOk, Except.toBool, h, fileYieldsNothing, hf, hi]
      | some f =>
        cases hrb : f.readBytes with
        | none =>
          rw [resolve_read_error req f h hf hrb]
          simp [Except.isOk, Except.toBool, h, fileReadRaises, hf, hrb]
        | some raw =>
          by_cases hd : decodeUtf8Ignore raw = ""
          · cases hi : req.image with
            | some img =>
              rw [resolve_image req img h (Or.inr ⟨f, raw, hf, hrb, hd⟩) hi]
              simp [Except.isOk, Except.toBool, fileReadRaises, hf, hrb, hi]
            | none =>
              rw [resolve_empty req h (Or.inr ⟨f, raw, hf, hrb, hd⟩) hi]
              simp [Except.isOk, Except.toBool, h, fileYieldsNothing, hf, hrb, hd, hi]
          · rw [resolve_file req f raw h hf hrb hd]
            simp [Except.isOk, Except.toBool, fileReadRaises, fileYieldsNothing, hf, hrb, hd]
    · rw [resolve_text req h]
      simp [Except.isOk, Except.toBool, h]
  · intro e he
    exact resolve_error_status req e ((summarize_error_iff req e).mp he)
  · intro t l g
    rw [summarize_isOk, summarize_isOk,
      show resolve { req with tone := t, length := l, language := g } = resolve req from rfl]

/-- Witness for C4: the empty request fails, its error is the 400
client error, and garbage option values do not change the outcome. -/
theorem C4_error_conditions_witness :
    (summarize ({} : SummarizeRequest)).isOk = false ∧
    (HTTPError.mk 400 "No input provided. Submit text, a file, or an image.").status = 400 ∧
    (summarize { tone := "WEIRD", length := "huge", language := "xx" }).isOk
      = (summarize ({} : SummarizeRequest)).isOk := by
  refine ⟨?_, ?_, ?_⟩
  · exact (C4_error_conditions {}).1.mpr ⟨rfl, Or.inr ⟨Or.inl rfl, rfl⟩⟩
  · exact (C4_error_conditions {}).2.1
      ⟨400, "No input provided. Submit text, a file, or an image."⟩ rfl
  · exact (C4_error_conditions {}).2.2 "WEIRD" "huge" "xx"

/-- C8: on every success the summary equals the tone prefix immediately
followed by the language suffix, then exactly one newline, then the
body. -/
theorem C8_summary_shape (req : SummarizeRequest) (content used : String)
    (r : SummaryResponse) (hres : resolve req = .ok (content, used))
    (hr : summarize req = .ok r) :
    r.summary = toneOf req.tone ++ langOf req.language ++ "\n"
      ++ bodyFor req.length req.bullets content := by
  rw [summarize_ok req content used hres] at hr
  rw [← Except.ok.inj hr]
  rfl

/-- Witness for C8: the executive scenario — no truncation, no language
suffix. -/
theorem C8_summary_shape_witness :
    ∃ r, summarize { tone := "executive", text := some "Hello world. This matters." }
        = .ok r ∧
      r.summary = "Executive brief:\nHello world. This matters." := by
  refine ⟨_, rfl, ?_⟩
  have h := C8_summary_shape
    { tone := "executive", text := some "Hello world. This matters." }
    "Hello world. This matters." "" _ rfl rfl
  rw [h]
  decide

/-- C7: on every success with bullets requested, the body is exactly the
three bullet lines — the first is "• Key point 1: " followed by the
trimmed first segment of the truncated text split on the literal dot
(the whole truncated text when that segment is empty), the second and
third are fixed — and each line starts with "• ". -/
theorem C7_bullets_shape (req : SummarizeRequest) (content used : String)
    (r : SummaryResponse) (hres : resolve req = .ok (content, used))
    (hb : req.bullets = true) (hr : summarize req = .ok r) :
    r.summary = toneOf req.tone ++ langOf req.language ++ "\n"
        ++ bodyFor req.length true content ∧
    linesOf (bodyFor req.length true content) =
      ["• Key point 1: "
          ++ firstSegment (pyTruncate (lengthCap req.length) (normalize content)),
        "• Key point 2: Impact and implications.",
        "• Next steps: Actions to take."] ∧
    (linesOf (bodyFor req.length true content)).length = 3 ∧
    ∀ l ∈ linesOf (bodyFor req.length true content), l.data.take 2 = ['•', ' '] := by
  have hfs := firstSegment_no_nl req.length content
  have hlines := linesOf_bulletBody (pyTruncate (lengthCap req.length) (normalize content)) hfs
  have hbody : bodyFor req.length true content
      = bulletBody (pyTruncate (lengthCap req.length) (normalize content)) := rfl
  refine ⟨?_, ?_, ?_, ?_⟩
  · rw [← hb]
    exact C8_summary_shape req content used r hres hr
  · rw [hbody, hlines]
  · rw [hbody, hlines]
    rfl
  · intro l hl
    rw [hbody, hlines] at hl
    simp only [List.mem_cons, List.not_mem_nil, or_false] at hl
    rcases hl with hl | hl | hl
    · rw [hl, String.data_append,
        List.take_append_of_le_length (by decide : 2 ≤ ("• Key point 1: " : String).data.length)]
      decide
    · rw [hl]
      decide
    · rw [hl]
      decide

/-- Witness for C7: a concrete bulleted request whose first sentence is
cut at the dot. -/
theorem C7_bullets_shape_witness :
    ∃ r, summarize { text := some "Alpha. Beta.", bullets := true } = .ok r ∧
      linesOf (bodyFor "short" true "Alpha. Beta.") =
        ["• Key point 1: Alpha", "• Key point 2: Impact and implications.",
         "• Next steps: Actions to take."] := by
  refine ⟨_, rfl, ?_⟩
  have h := (C7_bullets_shape { text := some "Alpha. Beta.", bullets := true }
      "Alpha. Beta." "" _ rfl rfl rfl).2.1
  rw [h]
  decide

set_option maxRecDepth 20000 in
/-- Counterexample for C2: with bullets requested and a 161-character
input under the 160 cap, the request succeeds but the response body is
247 characters long — over the cap — and ends with the fixed bullet
text, not with an ellipsis, even though the whitespace-collapsed input
exceeds the cap. -/
theorem C2_cap_counterexample :
    ∃ r, summarize { text := some (aChars 161), bullets := true } = .ok r ∧
      r.summary = toneOf "analytical" ++ langOf "en" ++ "\n"
        ++ bodyFor "short" true (aChars 161) ∧
      lengthCap "short" < (normalize (aChars 161)).length ∧
      lengthCap "short" < (bodyFor "short" true (aChars 161)).length ∧
      (bodyFor "short" true (aChars 161)).data.getLast? ≠ some '…' := by
  refine ⟨_, rfl, by decide, by decide, by decide, by decide⟩

/-- C2 amended: with bullets off, the body never exceeds the cap, and
when the whitespace-collapsed resolved text is longer than the cap the
body has length exactly `cap` and its final character is the ellipsis
(the appended one; with bullets on, the three-line bullet body is under
no such cap). -/
theorem C2_cap_bullets_false (req : SummarizeRequest) (content used : String)
    (r : SummaryResponse) (hres : resolve req = .ok (content, used))
    (hb : req.bullets = false) (hr : summarize req = .ok r) :
    r.summary = toneOf req.tone ++ langOf req.language ++ "\n"
        ++ bodyFor req.length false content ∧
    (bodyFor req.length false content).length ≤ lengthCap req.length ∧
    (lengthCap req.length < (normalize content).length →
      (bodyFor req.length false content).length = lengthCap req.length ∧
      (bodyFor req.length false content).data.getLast? = some '…') := by
  have hbody : bodyFor req.length false content
      = pyTruncate (lengthCap req.length) (normalize content) := rfl
  refine ⟨?_, ?_, ?_⟩
  · rw [← hb]
    exact C8_summary_shape req content used r hres hr
  · rw [hbody]
    exact pyTruncate_le _ _ (by have := lengthCap_ge req.length; omega)
  · intro h
    have hgt := pyTruncate_of_gt (lengthCap req.length) (normalize content) h
      (by have := lengthCap_ge req.length; omega)
    rw [hbody]
    refine ⟨hgt.2, ?_⟩
    rw [hgt.1]
    exact List.getLast?_concat _

set_option maxRecDepth 20000 in
/-- Witness for C2 (amended): a 170-character plain request is cut to
exactly 160 characters ending in the ellipsis. -/
theorem C2_cap_bullets_false_witness :
    ∃ r, summarize { text := some (aChars 170) } = .ok r ∧
      (bodyFor "short" false (aChars 170)).length = lengthCap "short" ∧
      (bodyFor "short" false (aChars 170)).data.getLast? = some '…' := by
  refine ⟨_, rfl, ?_⟩
  have h := C2_cap_bullets_false { text := some (aChars 170) } (aChars 170) "" _
    rfl rfl rfl
  exact h.2.2 (by decide)

/-- C10: when the text field is empty or absent and the file's bytes
decode to a non-empty string made only of whitespace, the request does
not fail: the whitespace-collapsed base text is empty, and with bullets
off the summary is the tone prefix plus language suffix, a newline, and
an empty body. -/
theorem C10_ws_file (req : SummarizeRequest) (f : FileUpload) (raw : List Nat)
    (ht : req.text = none ∨ req.text = some "") (hf : req.file = some f)
    (hrb : f.readBytes = some raw) (hd : decodeUtf8Ignore raw ≠ "")
    (hws : ∀ c ∈ (decodeUtf8Ignore raw).data, c.isWhitespace = true)
    (hb : req.bullets = false) :
    normalize (decodeUtf8Ignore raw) = "" ∧
    ∃ r, summarize req = .ok r ∧
      r.summary = toneOf req.tone ++ langOf req.language ++ "\n" ++ "" := by
  have htrim : trimmedText req = "" := by
    unfold trimmedText
    rcases ht with ht | ht <;> rw [ht] <;> rfl
  have hres := resolve_file req f raw htrim hf hrb hd
  have hnorm := normalize_of_ws _ hws
  refine ⟨hnorm, _, summarize_ok req _ _ hres, ?_⟩
  show formatSummary req.tone req.length req.language req.bullets (decodeUtf8Ignore raw) = _
  rw [hb]
  unfold formatSummary bodyFor
  rw [hnorm]
  show toneOf req.tone ++ langOf req.language ++ "\n"
      ++ pyTruncate (lengthCap req.length) "" = _
  rw [pyTruncate_of_le _ _ (by simp)]

/-- Witness for C10: a file of a space, a newline and a tab decodes to
non-empty whitespace and yields the empty-body summary. -/
theorem C10_ws_file_witness :
    normalize (decodeUtf8Ignore [32, 10, 9]) = "" ∧
    ∃ r, summarize { file := some ⟨some "blank.txt", some [32, 10, 9]⟩ } = .ok r ∧
      r.summary = toneOf "analytical" ++ langOf "en" ++ "\n" ++ "" :=
  C10_ws_file { file := some ⟨some "blank.txt", some [32, 10, 9]⟩ }
    ⟨some "blank.txt", some [32, 10, 9]⟩ [32, 10, 9] (Or.inl rfl) rfl rfl
    (by decide) (by decide) rfl

/-- Counterexample for C1: for text="", an image named "cat.png" and
bullets on, the resolved content is "[Image: cat.png]" as claimed, but
the first body line is "• Key point 1: [Image: cat" — the dot inside
the filename cuts the bullet segment — not
"• Key point 1: [Image: cat.png]". -/
theorem C1_image_bullets_counterexample :
    resolve { text := some "", image := some ⟨some "cat.png"⟩, bullets := true }
      = .ok ("[Image: cat.png]", "cat.png") ∧
    (∃ r, summarize { text := some "", image := some ⟨some "cat.png"⟩, bullets := true }
        = .ok r ∧
      linesOf r.summary =
        ["Analytical summary:", "• Key point 1: [Image: cat",
         "• Key point 2: Impact and implications.", "• Next steps: Actions to take."]) ∧
    ("• Key point 1: [Image: cat" : String) ≠ "• Key point 1: [Image: cat.png]" := by
  refine ⟨rfl, ⟨_, rfl, by decide⟩, by decide⟩

/-- C1 amended: for that request the resolved content is
"[Image: cat.png]" and the body has exactly the 3 bullet lines, but the
first quotes only "[Image: cat" as key point 1, the content up to the
first dot — which falls inside the filename. -/
theorem C1_image_bullets_amended :
    ∃ r, summarize { text := some "", image := some ⟨some "cat.png"⟩, bullets := true }
        = .ok r ∧
      resolve { text := some "", image := some ⟨some "cat.png"⟩, bullets := true }
        = .ok ("[Image: cat.png]", "cat.png") ∧
      linesOf (bodyFor "short" true "[Image: cat.png]") =
        ["• Key point 1: [Image: cat", "• Key point 2: Impact and implications.",
         "• Next steps: Actions to take."] ∧
      r.summary = toneOf "analytical" ++ langOf "en" ++ "\n"
        ++ bodyFor "short" true "[Image: cat.png]" := by
  refine ⟨_, rfl, rfl, by decide, by decide⟩

end Summarizer
